import Mathlib

/-!
Verification of the Parquet map-viewer ingestion pipeline
(`src/components/viewers/map/ParquetLayer.tsx` and the second, earlier
variant of the same component).  JavaScript runtime values that can occur
in decoded rows are shallowly embedded as `JSValue`; the stateful parts of
the component (the mounted flag, the module-level zstd codec, the effects
published through React state setters and callbacks) are embedded as
explicit state passing and event traces.  External library boundaries
(the columnar decoder `load`, the WKB parsers `wkbToGeojson` and `wkx`,
the built-in `JSON.parse`) are passed in as function parameters, since
the component only observes their success-or-throw behaviour.
-/

set_option autoImplicit false

namespace ParquetViewer

/-- A JavaScript runtime value as it can appear in a decoded Parquet row or
in a GeoJSON geometry: `undef` is `undefined`, `bin` is a `Uint8Array`
(bytes as naturals below 256), `num` carries a numeric value (rationals
model the exactly-representable decimals the pipeline handles) and `nan`
models the `NaN` result of a failed numeric parse. -/
inductive JSValue where
  | undef
  | nullV
  | boolV (b : Bool)
  | num (q : ℚ)
  | nan
  | str (s : String)
  | bin (bytes : List Nat)
  | arr (elems : List JSValue)
  | obj (fields : List (String × JSValue))

/-- JavaScript truthiness: `undefined`, `null`, `false`, `0`, `NaN` and the
empty string are falsy; every object (including every `Uint8Array` and
every array, even empty ones) is truthy. -/
def jsTruthy : JSValue → Bool
  | .undef => false
  | .nullV => false
  | .boolV b => b
  | .num q => decide (q ≠ 0)
  | .nan => false
  | .str s => !s.isEmpty
  | .bin _ => true
  | .arr _ => true
  | .obj _ => true

/-- Lookup of a key in an ordered field list: the first binding wins
(object keys are unique in JavaScript), absence yields `undefined`. -/
def lookupField (fields : List (String × JSValue)) (k : String) : JSValue :=
  match fields with
  | [] => .undef
  | p :: rest => if p.1 == k then p.2 else lookupField rest k

/-- Property access `v.k` on a JavaScript value: objects look the key up,
every other value yields `undefined` for the property names the pipeline
reads. -/
def jsGet (v : JSValue) (k : String) : JSValue :=
  match v with
  | .obj fields => lookupField fields k
  | _ => JSValue.undef

/-- A decoded row: an ordered association of field names to values
(`object-row-table` shape). -/
abbrev Row : Type := List (String × JSValue)

/-- Field access `row[k]` (`undefined` when the field is absent). -/
def rowGet (row : Row) (k : String) : JSValue :=
  lookupField row k

/-- The object spread `\x7b...row, [k]: v\x7d`: every binding of `k` is
overwritten with `v`; if `k` was absent it is appended. -/
def setField (row : Row) (k : String) (v : JSValue) : Row :=
  if row.any (fun p => p.1 == k) then
    row.map (fun p => if p.1 == k then (k, v) else p)
  else
    row ++ [(k, v)]

/-- One character of the regular expression class `[0-9a-fA-F]`. -/
def isHexDigitJS (c : Char) : Bool :=
  c.isDigit || ('a' ≤ c && c ≤ 'f') || ('A' ≤ c && c ≤ 'F')

/-- The test `/^[0-9a-fA-F]+$/.test(s)` at line 182 of `ParquetLayer.tsx`:
a non-empty string all of whose characters are hexadecimal digits. -/
def isHexString (s : String) : Bool :=
  !s.isEmpty && s.toList.all isHexDigitJS

/-- Numeric value of a block of decimal digit characters. -/
def digitsToNat (cs : List Char) : Nat :=
  cs.foldl (fun acc c => 10 * acc + (c.toNat - '0'.toNat)) 0

/-- The JavaScript `parseFloat` applied to a string: skip leading
whitespace, take an optional sign, then the longest run of digits with an
optional fractional part; `none` models the `NaN` result when no digit is
found.  Exponent notation is not modelled (the pipeline only meets plain
decimal coordinate literals). -/
def parseFloatString (s : String) : Option ℚ :=
  let cs := s.toList.dropWhile (fun c => c.isWhitespace)
  let signRest : ℚ × List Char :=
    match cs with
    | '-' :: r => (-1, r)
    | '+' :: r => (1, r)
    | r => (1, r)
  let intPart := signRest.2.takeWhile Char.isDigit
  let afterInt := signRest.2.dropWhile Char.isDigit
  let fracPart : List Char :=
    match afterInt with
    | '.' :: r => r.takeWhile Char.isDigit
    | _ => []
  if intPart.isEmpty && fracPart.isEmpty then none
  else
    some (signRest.1 *
      ((digitsToNat intPart : ℚ) + (digitsToNat fracPart : ℚ) / (10 : ℚ) ^ fracPart.length))

/-- The coercion-then-parse of `parseFloat(v)` on an arbitrary value: a
number parses to itself, a string through `parseFloatString`, a
`Uint8Array` stringifies to the comma-joined bytes so its leading number
is the first byte, and the remaining values stringify to non-numeric text
(`undefined`, `null`, `true`, `[object Object]`, ...), yielding `NaN`;
composite arrays are likewise modelled as `NaN` since the pipeline never
passes them. -/
def parseFloatJS : JSValue → JSValue
  | .num q => .num q
  | .str s =>
    match parseFloatString s with
    | some q => .num q
    | none => .nan
  | .bin bytes =>
    match bytes with
    | [] => .nan
    | b :: _ => .num b
  | _ => .nan

/-- Lines 62-67 of `ParquetLayer.tsx`: `createPointFromCoordinates(lat, lon)`
returns a GeoJSON Point object whose coordinates are
`[parseFloat(lon), parseFloat(lat)]` — longitude first. -/
def createPointFromCoordinates (lat lon : JSValue) : JSValue :=
  .obj [("type", .str "Point"), ("coordinates", .arr [parseFloatJS lon, parseFloatJS lat])]

/-- Line 12 of `ParquetLayer.tsx`. -/
def CHUNK_SIZE : Nat := 1000000

/-- The chunking loop of `decompressData` (lines 54-56):
`for (let i = 0; i <= inputArray.length; i += CHUNK_SIZE)
   chunks.push(inputArray.subarray(i, i + CHUNK_SIZE))`,
with `subarray(i, i + CHUNK_SIZE)` embedded as `(drop i).take CHUNK_SIZE`.
Note the loop guard is `<=`, not `<`. -/
def chunkLoop (arr : List Nat) (i : Nat) : List (List Nat) :=
  if _h : i ≤ arr.length then
    (arr.drop i).take CHUNK_SIZE :: chunkLoop arr (i + CHUNK_SIZE)
  else []
termination_by arr.length + 1 - i
decreasing_by simp [CHUNK_SIZE]; omega

/-- The `chunks` array handed to `simpleZstd.decompressChunks` at line 58. -/
def decompressDataChunks (input : List Nat) : List (List Nat) :=
  chunkLoop input 0

/-- The decoded columnar result as `processParquetData` receives it: the
schema reported by the decoder (only field names are consulted, so the
schema is embedded as a name list; `none` is a result without a `schema`
property) and the row list (the normalization
`Array.isArray(parquetData) ? parquetData : parquetData.data`). -/
structure ParquetData where
  schema : Option (List String)
  data : List Row

/-- Line 123 of `ParquetLayer.tsx`: the ordered candidate list of
conventional geometry column names. -/
def geometryColumns : List String := ["geometry", "geom", "the_geom", "wkb_geometry"]

/-- Lines 127-136: scan the candidates in order and keep the first one
that occurs among the schema field names; with no schema the loop body
never runs and the column stays `null`. -/
def findGeometryColumn (schema : Option (List String)) : Option String :=
  match schema with
  | some fields => geometryColumns.find? (fun c => fields.contains c)
  | none => none

/-- Lines 140-141: `parquetData.schema?.fields.some(latitude)` and the
same for longitude; with no schema the optional chain yields `undefined`,
which is falsy. -/
def schemaHasLatLon (schema : Option (List String)) : Bool :=
  match schema with
  | some fields => fields.contains "latitude" && fields.contains "longitude"
  | none => false

/-- A produced GeoJSON Feature: the resolved geometry and the properties
object. -/
structure Feature where
  geometry : JSValue
  properties : Row

/-- Case 1 of the row loop (lines 171-177): a binary payload is handed to
`wkbToGeojson`; a thrown parse (`none`) is swallowed and the chain
continues.  Non-binary values skip the case because of the
`instanceof Uint8Array || ArrayBuffer.isView` guard. -/
def geometryCase1 (wkbToGeojson : List Nat → Option JSValue) (rawGeometry : JSValue) :
    Option JSValue :=
  match rawGeometry with
  | .bin bytes => wkbToGeojson bytes
  | _ => none

/-- Case 2 of the row loop (lines 180-192): a string value is JSON-parsed
unless it matches the pure-hex pattern, and the parse is accepted only
when the parsed value, its `type` and its `coordinates` are all truthy;
a JSON throw is silently ignored. -/
def geometryCase2 (jsonParse : String → Option JSValue) (rawGeometry : JSValue) :
    Option JSValue :=
  match rawGeometry with
  | .str s =>
    if isHexString s then none
    else
      match jsonParse s with
      | some parsed =>
        if jsTruthy parsed && jsTruthy (jsGet parsed "type") &&
            jsTruthy (jsGet parsed "coordinates") then some parsed
        else none
      | none => none
  | _ => none

/-- Case 3 of the row loop (lines 195-197): a value with truthy `type`
and `coordinates` properties is accepted as already-structured GeoJSON. -/
def geometryCase3 (rawGeometry : JSValue) : Option JSValue :=
  if jsTruthy (jsGet rawGeometry "type") && jsTruthy (jsGet rawGeometry "coordinates") then
    some rawGeometry
  else none

/-- The latitude/longitude fallback of the row loop (lines 200-202). -/
def geometryLatLon (row : Row) : Option JSValue :=
  if jsTruthy (rowGet row "latitude") && jsTruthy (rowGet row "longitude") then
    some (createPointFromCoordinates (rowGet row "latitude") (rowGet row "longitude"))
  else none

/-- The body of the row loop at lines 161-202 of `ParquetLayer.tsx`,
deciding the geometry of one row; the external `wkbToGeojson` and the
built-in `JSON.parse` are passed in, returning `none` where the library
call throws.  Step order: the truthiness guard with `continue` (165-167),
then the four cases, each attempted only while `geometry` is still
`null`. -/
def decodeRowGeometry (wkbToGeojson : List Nat → Option JSValue)
    (jsonParse : String → Option JSValue) (geometryColumn : String) (row : Row) :
    Option JSValue :=
  let rawGeometry := rowGet row geometryColumn
  if !jsTruthy rawGeometry then none
  else
    match geometryCase1 wkbToGeojson rawGeometry with
    | some g => some g
    | none =>
      match geometryCase2 jsonParse rawGeometry with
      | some g => some g
      | none =>
        match geometryCase3 rawGeometry with
        | some g => some g
        | none => geometryLatLon row

/-- Lines 161-214: each row contributes a Feature exactly when its
geometry resolves; the properties are the spread
`\x7b...row, [geometryColumn]: undefined\x7d`.  The per-row `try/catch` is
not represented because every step of the embedded body is total; a row
whose geometry stays `null` is simply dropped, as in the source. -/
def processRowsWithColumn (wkbToGeojson : List Nat → Option JSValue)
    (jsonParse : String → Option JSValue) (geometryColumn : String) (rows : List Row) :
    List Feature :=
  rows.filterMap (fun row =>
    (decodeRowGeometry wkbToGeojson jsonParse geometryColumn row).map
      (fun g => ⟨g, setField row geometryColumn .undef⟩))

/-- Lines 143-152: the latitude/longitude branch taken when no geometry
column was found but the schema lists both fields; a row contributes a
Point exactly when both fields are truthy, and the whole row (geometry
fields included, untouched) becomes the properties. -/
def processLatLonRows (rows : List Row) : List Feature :=
  rows.filterMap (fun row =>
    if jsTruthy (rowGet row "latitude") && jsTruthy (rowGet row "longitude") then
      some ⟨createPointFromCoordinates (rowGet row "latitude") (rowGet row "longitude"), row⟩
    else none)

/-- The two errors thrown by `processParquetData` itself: line 154
(`No geometry column or lat/lon columns found in Parquet data`) and line
218 (`No valid features found in Parquet data`). -/
inductive PipeError where
  | noGeometry
  | emptyResult
  deriving DecidableEq

/-- The pure part of `processParquetData` (lines 120-226): resolve the
geometry source from the schema, process the rows accordingly, and fail
with `emptyResult` when zero features were produced. -/
def processParquetData (wkbToGeojson : List Nat → Option JSValue)
    (jsonParse : String → Option JSValue) (parquetData : ParquetData) :
    Except PipeError (List Feature) :=
  let branch : Except PipeError (List Feature) :=
    match findGeometryColumn parquetData.schema with
    | none =>
      if schemaHasLatLon parquetData.schema then .ok (processLatLonRows parquetData.data)
      else .error .noGeometry
    | some geometryColumn =>
      .ok (processRowsWithColumn wkbToGeojson jsonParse geometryColumn parquetData.data)
  match branch with
  | .error e => .error e
  | .ok features => if features.length = 0 then .error .emptyResult else .ok features

/-- A terminal error of one pipeline run: either an external failure
(fetch rejection, a decoder throw, a codec throw — kept abstract in `ε`)
or one of the two errors thrown by `processParquetData`. -/
inductive LoadError (ε : Type) where
  | external (e : ε)
  | pipe (e : PipeError)

/-- The observable state-publishing effects of one `loadData` run: the
React state setters and the caller-supplied callbacks. -/
inductive Event (ε : Type) where
  | setData (features : List Feature)
  | onLoad
  | setError (e : LoadError ε)
  | onError (e : LoadError ε)

/-- The effectful shell of `processParquetData`: the `isMounted` early
return at line 118, and the guarded publication at lines 228-231.  The
body contains no `await`, so it runs synchronously and both reads of
`isMounted` see the same value.  Returns the published events together
with the error the function throws to `loadData`, if any. -/
def processParquetDataMounted {ε : Type} (wkbToGeojson : List Nat → Option JSValue)
    (jsonParse : String → Option JSValue) (isMounted : Bool) (parquetData : ParquetData) :
    List (Event ε) × Option PipeError :=
  if !isMounted then ([], none)
  else
    match processParquetData wkbToGeojson jsonParse parquetData with
    | .error e => ([], some e)
    | .ok features =>
      (if isMounted then [Event.setData features, Event.onLoad] else [], none)

/-- One decode or decompression attempt made by `loadData`. -/
inductive Attempt where
  | decode (buf : List Nat)
  | decompressCall (buf : List Nat)
  deriving DecidableEq

/-- The decode-and-process part of `loadData` (lines 78-109) as a trace:
which buffers are handed to the columnar decoder and to the decompressor,
in order, together with the terminal outcome.  The inner `try` at lines
79-91 wraps BOTH the direct `load` call and the `processParquetData`
call, so its `catch` — and with it the decompression fallback — fires
either when the direct decode throws or when processing throws after a
successful decode; the `return` at line 88 is the success of the first
attempt.  The fallback path (lines 93-109) runs outside the inner `try`,
so its failures — the decompression throw, the retried decode throw, or
a processing throw on the retried data — propagate to the single outer
catch of `loadData`. -/
def loadDataAttempts {ε : Type} (load : List Nat → Except ε ParquetData)
    (decompressData : List Nat → Except ε (List Nat))
    (wkbToGeojson : List Nat → Option JSValue) (jsonParse : String → Option JSValue)
    (isMounted : Bool) (arrayBuffer : List Nat) :
    List Attempt × Except (LoadError ε) (List (Event ε)) :=
  let attempt1 : Except (LoadError ε) (List (Event ε)) :=
    match load arrayBuffer with
    | .error e1 => .error (.external e1)
    | .ok parquetData =>
      match processParquetDataMounted wkbToGeojson jsonParse isMounted parquetData with
      | (events, none) => .ok events
      | (_, some pe) => .error (.pipe pe)
  match attempt1 with
  | .ok events => ([.decode arrayBuffer], .ok events)
  | .error _ =>
    match decompressData arrayBuffer with
    | .error ed =>
      ([.decode arrayBuffer, .decompressCall arrayBuffer], .error (.external ed))
    | .ok decompressedData =>
      match load decompressedData with
      | .error e2 =>
        ([.decode arrayBuffer, .decompressCall arrayBuffer, .decode decompressedData],
          .error (.external e2))
      | .ok parquetData =>
        match processParquetDataMounted wkbToGeojson jsonParse isMounted parquetData with
        | (events, none) =>
          ([.decode arrayBuffer, .decompressCall arrayBuffer, .decode decompressedData],
            .ok events)
        | (_, some pe) =>
          ([.decode arrayBuffer, .decompressCall arrayBuffer, .decode decompressedData],
            .error (.pipe pe))

/-- The `loadData` function (lines 69-115) as a trace of published
events: the fetch, then the decode-and-process attempts of
`loadDataAttempts`, and the single outer `catch` (lines 110-114) that
publishes `setError` and calls `onError` — with no `isMounted` check. -/
def loadData {ε : Type} (fetchResult : Except ε (List Nat))
    (load : List Nat → Except ε ParquetData)
    (decompressData : List Nat → Except ε (List Nat))
    (wkbToGeojson : List Nat → Option JSValue) (jsonParse : String → Option JSValue)
    (isMounted : Bool) : List (Event ε) :=
  let run : Except (LoadError ε) (List (Event ε)) :=
    match fetchResult with
    | .error e => .error (.external e)
    | .ok arrayBuffer =>
      (loadDataAttempts load decompressData wkbToGeojson jsonParse isMounted arrayBuffer).2
  match run with
  | .ok events => events
  | .error e => [Event.setError e, Event.onError e]

/-- The module-level mutable state of lines 21-23: `zstdPromise` records
whether the initialization promise has been assigned (its payload is
irrelevant to the control flow), `zstd` is the codec value, `undefined`
until the first initialization completes.  Codec values are abstracted as
naturals. -/
structure ZstdState where
  zstdPromise : Option Unit
  zstd : Option Nat

/-- What a call to `preloadZstd` does up to its first suspension point
(lines 40-46): either it found `zstdPromise` unset, assigned it and
suspended on `await zstdPromise`, or it skipped the `if` and returned the
current value of `zstd` without awaiting anything. -/
inductive PreloadOutcome where
  | awaitingInit
  | returned (v : Option Nat)
  deriving DecidableEq

/-- The synchronous prefix of a `preloadZstd` call: the check-and-assign
of `zstdPromise` followed by either the suspension or the immediate
`return zstd`. -/
def preloadZstdEntry (s : ZstdState) : ZstdState × PreloadOutcome :=
  match s.zstdPromise with
  | none => (⟨some (), s.zstd⟩, .awaitingInit)
  | some _ => (s, .returned s.zstd)

/-- The resumption of a suspended `preloadZstd` call once `ZstdCodec.run`
has produced the codec: `zstd = await zstdPromise` assigns the module
variable and the call returns it. -/
def preloadZstdResume (s : ZstdState) (codec : Nat) : ZstdState × Option Nat :=
  (⟨s.zstdPromise, some codec⟩, some codec)

/-- The initial module state: both variables undefined. -/
def zstdInitialState : ZstdState := ⟨none, none⟩

/-- The Unicode replacement character used for malformed byte sequences. -/
def replacementChar : Char := Char.ofNat 0xFFFD

/-- Whether a byte is a UTF-8 continuation byte. -/
def isUtf8Cont (b : Nat) : Bool := 0x80 ≤ b && b < 0xC0

/-- One step of UTF-8 decoding: given a lead byte and the bytes after it,
the decoded character and how many continuation bytes were consumed. -/
def utf8Step (b : Nat) (rest : List Nat) : Char × Nat :=
  if b < 0x80 then (Char.ofNat b, 0)
  else if b < 0xC2 then (replacementChar, 0)
  else if b < 0xE0 then
    match rest with
    | b2 :: _ =>
      if isUtf8Cont b2 then (Char.ofNat ((b - 0xC0) * 0x40 + (b2 - 0x80)), 1)
      else (replacementChar, 0)
    | [] => (replacementChar, 0)
  else if b < 0xF0 then
    match rest with
    | b2 :: b3 :: _ =>
      if isUtf8Cont b2 && isUtf8Cont b3 then
        (Char.ofNat ((b - 0xE0) * 0x1000 + (b2 - 0x80) * 0x40 + (b3 - 0x80)), 2)
      else (replacementChar, 0)
    | _ => (replacementChar, 0)
  else
    match rest with
    | b2 :: b3 :: b4 :: _ =>
      if b < 0xF5 && (isUtf8Cont b2 && isUtf8Cont b3 && isUtf8Cont b4) then
        (Char.ofNat
            ((b - 0xF0) * 0x40000 + (b2 - 0x80) * 0x1000 + (b3 - 0x80) * 0x40 + (b4 - 0x80)),
          3)
      else (replacementChar, 0)
    | _ => (replacementChar, 0)

/-- Fuel-indexed UTF-8 decoding loop; every step consumes at least one
byte, so fuel equal to the byte count suffices. -/
def utf8DecodeGo : Nat → List Nat → List Char
  | 0, _ => []
  | _, [] => []
  | fuel + 1, b :: rest =>
    let st := utf8Step b rest
    st.1 :: utf8DecodeGo fuel (rest.drop st.2)

/-- UTF-8 decoding of a byte list, modelling `new TextDecoder().decode`:
well-formed sequences decode to their code points; malformed bytes become
replacement characters (the exact maximal-subpart replacement policy of
the living standard is approximated, as the pipeline only decodes
well-formed text). -/
def utf8DecodeList (bytes : List Nat) : List Char :=
  utf8DecodeGo bytes.length bytes

/-- String form of the UTF-8 decoding. -/
def utf8Decode (bytes : List Nat) : String := String.mk (utf8DecodeList bytes)

/-- Decimal digits of the fractional part of a non-negative rational,
with a fuel bound (JavaScript prints at most 17 significant digits; the
values the pipeline meets terminate much earlier). -/
def fracDigits (r : ℚ) (fuel : Nat) : List Char :=
  match fuel with
  | 0 => []
  | fuel + 1 =>
    if r = 0 then []
    else
      let r10 := r * 10
      let d := r10.floor
      Char.ofNat ('0'.toNat + d.toNat) :: fracDigits (r10 - d) fuel

/-- JavaScript `String(n)` for a finite number value. -/
def jsNumToString (q : ℚ) : String :=
  let sign := if q < 0 then "-" else ""
  let aq := |q|
  let ip := aq.floor
  let fr := aq - ip
  sign ++ toString ip ++ (if fr = 0 then "" else "." ++ String.mk (fracDigits fr 20))

/-- JavaScript `String(value)` for the non-composite values: scalars
print their usual forms, a `Uint8Array` prints its comma-joined bytes. -/
def scalarToString : JSValue → String
  | .undef => "undefined"
  | .nullV => "null"
  | .boolV b => if b then "true" else "false"
  | .num q => jsNumToString q
  | .nan => "NaN"
  | .str s => s
  | .bin bytes => String.intercalate "," (bytes.map (fun b => toString b))
  | .arr _ => ""
  | .obj _ => "[object Object]"

/-- JavaScript `String(value)`: arrays join the string forms of their
elements with commas (modelled one level deep — the rows the pipeline
meets hold scalar fields), everything else as in `scalarToString`. -/
def jsToString (v : JSValue) : String :=
  match v with
  | .arr elems => String.intercalate "," (elems.map scalarToString)
  | v => scalarToString v

/-- Lines 104-109 of the second component variant: a `Uint8Array` value
is decoded as UTF-8 text, every other value goes through `String(value)`. -/
def decodeUint8Array (value : JSValue) : JSValue :=
  match value with
  | .bin bytes => .str (utf8Decode bytes)
  | v => .str (jsToString v)

/-- The byte list of `Buffer.from(s, 'binary')`: latin-1 code units. -/
def latin1Bytes (s : String) : List Nat := s.toList.map (fun c => c.toNat % 256)

/-- The geometry parse of the second variant (lines 128-138): the
`geometry` field is WKB-parsed when present — binary payloads directly,
strings through a latin-1 `Buffer` — and anything else, or a parser
throw, yields nothing.  The external
`wkx.Geometry.parse(..).toGeoJSON()` is the `wkxParse` parameter,
returning `none` where it throws. -/
def extractGeometry (wkxParse : List Nat → Option JSValue) (row : Row) : Option JSValue :=
  if jsTruthy (rowGet row "geometry") then
    match rowGet row "geometry" with
    | .bin bytes => wkxParse bytes
    | .str s => wkxParse (latin1Bytes s)
    | _ => none
  else none

/-- The row mapper inside `extractFeatures` (second variant, lines
126-161): drop the row if no geometry parsed (or the parser threw), and
otherwise build the Feature whose properties drop the `geometry` key and
pass every remaining value through `decodeUint8Array`. -/
def extractFeature (wkxParse : List Nat → Option JSValue) (row : Row) : Option Feature :=
  match extractGeometry wkxParse row with
  | none => none
  | some g =>
    some ⟨g, (row.filter (fun p => p.1 != "geometry")).map (fun p => (p.1, decodeUint8Array p.2))⟩

/-- Lines 125-162 of the second variant: `rows.map(...).filter(Boolean)`,
embedded as a `filterMap` over the row mapper. -/
def extractFeatures (wkxParse : List Nat → Option JSValue) (rows : List Row) : List Feature :=
  rows.filterMap (extractFeature wkxParse)

/-! Concrete instances of the external boundaries and concrete inputs,
used to evaluate the pipeline on specific data. -/

/-- A WKB decoder that always throws. -/
def wkb0 : List Nat → Option JSValue := fun _ => none

/-- A JSON parser that always throws. -/
def jp0 : String → Option JSValue := fun _ => none

/-- A structured GeoJSON point with two coordinates. -/
def gPoint12 : JSValue :=
  .obj [("type", .str "Point"), ("coordinates", .arr [.num 1, .num 2])]

/-- A structured geometry value whose coordinate sequence is empty. -/
def gEmptyCoords : JSValue := .obj [("type", .str "Point"), ("coordinates", .arr [])]

/-- A WKB decoder that decodes every payload to `gPoint12`. -/
def wkx1 : List Nat → Option JSValue := fun _ => some gPoint12

/-- A JSON parser that parses every string to `gPoint12`. -/
def jp1 : String → Option JSValue := fun _ => some gPoint12

/-- A row with a structured geometry field. -/
def rowG : Row := [("geometry", gPoint12)]

/-- A row with no geometry field but parseable latitude and longitude. -/
def rowLL : Row := [("latitude", .str "40.7"), ("longitude", .str "-74.0")]

/-- A row whose geometry is a hex string and which carries latitude and
longitude. -/
def rowHexLL : Row :=
  [("geometry", .str "00"), ("latitude", .str "40.7"), ("longitude", .str "-74.0")]

/-- A row whose structured geometry has an empty coordinate sequence. -/
def rowEmptyCoords : Row := [("geometry", gEmptyCoords)]

/-- A row with a structured geometry and a binary non-geometry field. -/
def rowBinProp : Row := [("geometry", gPoint12), ("name", .bin [72, 105])]

/-- A row with a binary geometry, a binary text field holding the UTF-8
bytes of `Hi`, and a plain string field. -/
def rowBin : Row :=
  [("geometry", .bin [1, 2, 3]), ("name", .bin [72, 105]), ("note", .str "x")]

/-- The Feature `extractFeature wkx1 rowBin` produces. -/
def fB : Feature := ⟨gPoint12, [("name", .str "Hi"), ("note", .str "x")]⟩

/-- A row whose geometry field is a pure-hex string and which has no
latitude or longitude fields. -/
def rowHex : Row := [("geometry", .str "deadBEEF01")]

/-- A decoded result whose schema has neither a geometry candidate column
nor latitude/longitude fields. -/
def pdNoGeom : ParquetData := ⟨some ["a"], [[("a", .num 1)]]⟩

/-- A decoded result with a geometry column and no rows. -/
def pdEmpty : ParquetData := ⟨some ["geometry"], []⟩

/-- Whether an attempt in the `loadData` trace is a columnar decode. -/
def isDecodeAttempt : Attempt → Bool
  | .decode _ => true
  | .decompressCall _ => false

/-- The Feature the main pipeline produces from `rowBinProp`. -/
def f2C : Feature :=
  ⟨gPoint12, [("geometry", JSValue.undef), ("name", JSValue.bin [72, 105])]⟩

/-- The Feature the main pipeline produces from `rowG`. -/
def fG : Feature := ⟨gPoint12, [("geometry", JSValue.undef)]⟩

/-- A decoded result with a geometry column and one structured-geometry
row; it processes successfully to the single feature `fG`. -/
def pdG : ParquetData := ⟨some ["geometry"], [rowG]⟩

/-! Helper lemmas shared by the claim theorems. -/

theorem chunkLoop_flatten (arr : List Nat) (i : Nat) :
    (chunkLoop arr i).flatten = arr.drop i := by
  induction i using chunkLoop.induct arr with
  | case1 i h ih =>
    rw [chunkLoop, dif_pos h, List.flatten_cons, ih, ← List.drop_drop]
    exact List.take_append_drop _ _
  | case2 i h =>
    rw [chunkLoop, dif_neg h, List.flatten_nil]
    exact (List.drop_eq_nil_of_le (by omega)).symm

theorem chunkLoop_ne_nil (arr : List Nat) (i : Nat) (h : i ≤ arr.length) :
    chunkLoop arr i ≠ [] := by
  rw [chunkLoop, dif_pos h]
  exact List.cons_ne_nil _ _

theorem chunkLoop_mem_length (arr : List Nat) (i : Nat) (c : List Nat)
    (hc : c ∈ chunkLoop arr i) : c.length ≤ CHUNK_SIZE := by
  induction i using chunkLoop.induct arr with
  | case1 i h ih =>
    rw [chunkLoop, dif_pos h] at hc
    rcases List.mem_cons.mp hc with rfl | hc2
    · exact List.length_take_le _ _
    · exact ih hc2
  | case2 i h =>
    rw [chunkLoop, dif_neg h] at hc
    exact absurd hc (List.not_mem_nil c)

theorem chunkLoop_getLast (arr : List Nat) (i : Nat) :
    i ≤ arr.length → CHUNK_SIZE ∣ (arr.length - i) →
    (chunkLoop arr i).getLast? = some [] := by
  induction i using chunkLoop.induct arr with
  | case1 i h ih =>
    intro hle hdvd
    rw [chunkLoop, dif_pos h]
    by_cases h2 : i + CHUNK_SIZE ≤ arr.length
    · obtain ⟨c, cs, hcons⟩ :=
        List.exists_cons_of_ne_nil (chunkLoop_ne_nil arr (i + CHUNK_SIZE) h2)
      rw [hcons, List.getLast?_cons_cons, ← hcons]
      apply ih h2
      obtain ⟨k, hk⟩ := hdvd
      refine ⟨k - 1, ?_⟩
      have hC : CHUNK_SIZE = 1000000 := rfl
      rw [hC] at hk ⊢
      rw [hC] at h2
      omega
    · have hC : CHUNK_SIZE = 1000000 := rfl
      have hzero : arr.length - i = 0 := by
        obtain ⟨k, hk⟩ := hdvd
        rw [hC] at hk
        rw [hC] at h2
        omega
      have hi : i = arr.length := by omega
      subst hi
      rw [List.drop_length, List.take_nil]
      rw [show chunkLoop arr (arr.length + CHUNK_SIZE) = [] from by
        rw [chunkLoop, dif_neg (by rw [hC]; omega)]]
      rfl
  | case2 i h =>
    intro hle _
    omega

theorem jsTruthy_of_jsGet (v : JSValue) (k : String)
    (h : jsTruthy (jsGet v k) = true) : jsTruthy v = true := by
  cases v <;> simp [jsGet, jsTruthy] at h ⊢

theorem geometryCase1_some (wkb : List Nat → Option JSValue) (v g : JSValue)
    (h : geometryCase1 wkb v = some g) : ∃ bs, v = .bin bs ∧ wkb bs = some g := by
  cases v <;> simp only [geometryCase1] at h <;> try exact absurd h (by simp)
  case bin bytes => exact ⟨bytes, rfl, h⟩

theorem geometryCase2_some (jp : String → Option JSValue) (v g : JSValue)
    (h : geometryCase2 jp v = some g) :
    jsTruthy g = true ∧ jsTruthy (jsGet g "type") = true ∧
      jsTruthy (jsGet g "coordinates") = true := by
  cases v
  case str s =>
    simp only [geometryCase2] at h
    by_cases hx : isHexString s = true
    · rw [if_pos hx] at h
      exact absurd h (by simp)
    · rw [if_neg hx] at h
      cases hjp : jp s with
      | none => rw [hjp] at h; exact absurd h (by simp)
      | some parsed =>
        rw [hjp] at h
        by_cases hcond : (jsTruthy parsed && jsTruthy (jsGet parsed "type") &&
            jsTruthy (jsGet parsed "coordinates")) = true
        · simp only [hcond, if_true, Option.some.injEq] at h
          subst h
          simp only [Bool.and_eq_true] at hcond
          exact ⟨hcond.1.1, hcond.1.2, hcond.2⟩
        · simp [hcond] at h
  all_goals exact absurd h (by simp [geometryCase2])

theorem geometryCase3_some (v g : JSValue) (h : geometryCase3 v = some g) :
    g = v ∧ jsTruthy (jsGet v "type") = true ∧ jsTruthy (jsGet v "coordinates") = true := by
  unfold geometryCase3 at h
  split at h
  next hcond =>
    obtain rfl := Option.some.inj h
    simp only [Bool.and_eq_true] at hcond
    exact ⟨rfl, hcond.1, hcond.2⟩
  next => exact absurd h (by simp)

theorem geometryLatLon_some (row : Row) (g : JSValue) (h : geometryLatLon row = some g) :
    g = createPointFromCoordinates (rowGet row "latitude") (rowGet row "longitude") := by
  unfold geometryLatLon at h
  split at h
  · exact (Option.some.inj h).symm
  · exact absurd h (by simp)

theorem createPoint_truthy (lat lon : JSValue) :
    jsTruthy (createPointFromCoordinates lat lon) = true ∧
    jsTruthy (jsGet (createPointFromCoordinates lat lon) "type") = true ∧
    jsTruthy (jsGet (createPointFromCoordinates lat lon) "coordinates") = true :=
  ⟨rfl, rfl, rfl⟩

theorem decodeUint8Array_isStr (v : JSValue) : ∃ s, decodeUint8Array v = .str s := by
  cases v <;> exact ⟨_, rfl⟩

theorem lookupField_append_self (row : Row) (k : String) (v : JSValue)
    (h : row.any (fun p => p.1 == k) = false) :
    lookupField (row ++ [(k, v)]) k = v := by
  induction row with
  | nil => simp [lookupField]
  | cons p rest ih =>
    simp only [List.any_cons, Bool.or_eq_false_iff] at h
    rw [List.cons_append]
    unfold lookupField
    rw [if_neg (by simp [h.1])]
    exact ih h.2

theorem lookupField_map_replace (row : Row) (k : String) (v : JSValue)
    (h : row.any (fun p => p.1 == k) = true) :
    lookupField (row.map (fun p => if p.1 == k then (k, v) else p)) k = v := by
  induction row with
  | nil => simp at h
  | cons p rest ih =>
    simp only [List.any_cons, Bool.or_eq_true] at h
    rw [List.map_cons]
    by_cases hp : (p.1 == k) = true
    · rw [if_pos hp]
      unfold lookupField
      rw [if_pos (by simp)]
    · rw [if_neg hp]
      unfold lookupField
      rw [if_neg hp]
      rcases h with h | h
      · exact absurd h hp
      · exact ih h

theorem rowGet_setField (row : Row) (k : String) (v : JSValue) :
    rowGet (setField row k v) k = v := by
  unfold setField rowGet
  cases hany : row.any (fun p => p.1 == k) with
  | true =>
    rw [if_pos rfl]
    exact lookupField_map_replace row k v hany
  | false =>
    rw [if_neg (by simp)]
    exact lookupField_append_self row k v hany

theorem loadDataAttempts_fst {ε : Type} (load : List Nat → Except ε ParquetData)
    (dcmp : List Nat → Except ε (List Nat)) (wkb : List Nat → Option JSValue)
    (jp : String → Option JSValue) (isMounted : Bool) (buf : List Nat) :
    (loadDataAttempts load dcmp wkb jp isMounted buf).1 = [.decode buf] ∨
    (loadDataAttempts load dcmp wkb jp isMounted buf).1 =
      [.decode buf, .decompressCall buf] ∨
    ∃ dbuf, dcmp buf = .ok dbuf ∧
      (loadDataAttempts load dcmp wkb jp isMounted buf).1 =
        [.decode buf, .decompressCall buf, .decode dbuf] := by
  cases h1 : load buf with
  | ok pd =>
    rcases h4 : processParquetDataMounted (ε := ε) wkb jp isMounted pd with ⟨evs, pe⟩
    cases pe with
    | none => exact Or.inl (by simp [loadDataAttempts, h1, h4])
    | some p =>
      cases h2 : dcmp buf with
      | error ed => exact Or.inr (Or.inl (by simp [loadDataAttempts, h1, h4, h2]))
      | ok dbuf =>
        refine Or.inr (Or.inr ⟨dbuf, rfl, ?_⟩)
        cases h3 : load dbuf with
        | error e2 => simp [loadDataAttempts, h1, h4, h2, h3]
        | ok pd2 =>
          rcases h5 : processParquetDataMounted (ε := ε) wkb jp isMounted pd2 with ⟨evs2, pe2⟩
          cases pe2 with
          | none => simp [loadDataAttempts, h1, h4, h2, h3, h5]
          | some p2 => simp [loadDataAttempts, h1, h4, h2, h3, h5]
  | error e1 =>
    cases h2 : dcmp buf with
    | error ed => exact Or.inr (Or.inl (by simp [loadDataAttempts, h1, h2]))
    | ok dbuf =>
      refine Or.inr (Or.inr ⟨dbuf, rfl, ?_⟩)
      cases h3 : load dbuf with
      | error e2 => simp [loadDataAttempts, h1, h2, h3]
      | ok pd2 =>
        rcases h5 : processParquetDataMounted (ε := ε) wkb jp isMounted pd2 with ⟨evs2, pe2⟩
        cases pe2 with
        | none => simp [loadDataAttempts, h1, h2, h3, h5]
        | some p2 => simp [loadDataAttempts, h1, h2, h3, h5]

theorem decodeRowGeometry_some_truthy (wkb : List Nat → Option JSValue)
    (jp : String → Option JSValue) (col : String) (row : Row) (g : JSValue)
    (hwkb : ∀ bs g2, wkb bs = some g2 →
      jsTruthy (jsGet g2 "type") = true ∧ jsTruthy (jsGet g2 "coordinates") = true)
    (h : decodeRowGeometry wkb jp col row = some g) :
    jsTruthy g = true ∧ jsTruthy (jsGet g "type") = true ∧
      jsTruthy (jsGet g "coordinates") = true := by
  by_cases htr : jsTruthy (rowGet row col) = true
  · simp only [decodeRowGeometry, htr, Bool.not_true, Bool.false_eq_true, if_false] at h
    split at h
    next g1 heq1 =>
      obtain rfl := Option.some.inj h
      obtain ⟨bs, hbin, hwkbeq⟩ := geometryCase1_some wkb _ _ heq1
      obtain ⟨hty, hco⟩ := hwkb bs _ hwkbeq
      exact ⟨jsTruthy_of_jsGet _ _ hty, hty, hco⟩
    next heq1 =>
      split at h
      next g2 heq2 =>
        obtain rfl := Option.some.inj h
        exact geometryCase2_some jp _ _ heq2
      next heq2 =>
        split at h
        next g3 heq3 =>
          obtain rfl := Option.some.inj h
          obtain ⟨rfl, hty, hco⟩ := geometryCase3_some _ _ heq3
          exact ⟨htr, hty, hco⟩
        next heq3 =>
          obtain rfl := geometryLatLon_some row g h
          exact createPoint_truthy _ _
  · have hfalse : jsTruthy (rowGet row col) = false := by
      cases hb : jsTruthy (rowGet row col)
      · rfl
      · exact absurd hb htr
    simp [decodeRowGeometry, hfalse] at h

/-! The claim theorems. -/

/-- C10: for every input buffer, including the empty one, the chunk
sequence handed to the streaming decompression call is non-empty, its
concatenation equals the input bytes exactly, every chunk holds at most
`CHUNK_SIZE` (1,000,000) bytes, and when the input length is an exact
multiple of `CHUNK_SIZE` (including zero) the sequence ends with an empty
chunk — so an empty chunk sequence is unreachable. -/
theorem decompressDataChunks_spec (input : List Nat) :
    decompressDataChunks input ≠ [] ∧
    (decompressDataChunks input).flatten = input ∧
    (∀ c ∈ decompressDataChunks input, c.length ≤ CHUNK_SIZE) ∧
    (CHUNK_SIZE ∣ input.length → (decompressDataChunks input).getLast? = some []) := by
  refine ⟨chunkLoop_ne_nil input 0 (Nat.zero_le _), ?_, ?_, ?_⟩
  · show (chunkLoop input 0).flatten = input
    rw [chunkLoop_flatten, List.drop_zero]
  · intro c hc
    exact chunkLoop_mem_length input 0 c hc
  · intro hdvd
    exact chunkLoop_getLast input 0 (Nat.zero_le _) (by simpa using hdvd)

/-- Witness for C10 at the empty buffer: one chunk, itself empty, whose
concatenation is the empty input. -/
theorem decompressDataChunks_spec_witness :
    decompressDataChunks [] ≠ [] ∧ (decompressDataChunks []).flatten = [] ∧
      (decompressDataChunks []).getLast? = some [] :=
  ⟨(decompressDataChunks_spec []).1, (decompressDataChunks_spec []).2.1,
    (decompressDataChunks_spec []).2.2.2 ⟨0, rfl⟩⟩

/-- C3: the claim says a torn-down consumer sees no published state and no
callback.  The success path honors this (second conjunct: everything
succeeds while unmounted and nothing is published), but the `catch` of
`loadData` checks no liveness flag, so a fetch that rejects after the
unmount still publishes `setError` and invokes `onError` (first
conjunct) — the code contradicts the stated cancellation contract. -/
theorem loadData_unmounted_error_published :
    loadData (Except.error () : Except Unit (List Nat)) (fun _ => .error ())
        (fun _ => .error ()) wkb0 jp0 false =
      [Event.setError (.external ()), Event.onError (.external ())] ∧
    loadData (Except.ok [] : Except Unit (List Nat)) (fun _ => .ok ⟨some ["geometry"], [rowG]⟩)
        (fun _ => .error ()) wkb0 jp0 false = [] :=
  ⟨rfl, rfl⟩

/-- C4: tracing `preloadZstd` through an interleaving: the first caller
finds `zstdPromise` unset, assigns it and suspends (first conjunct); a
second caller arriving before the initialization resolves skips the `if`
and returns the still-undefined `zstd` (second conjunct — the bug), while
leaving the module state untouched, so initialization is not re-run
(third conjunct); once the initialization resolves, the first caller and
any later caller receive the codec (fourth and fifth conjuncts). -/
theorem preloadZstd_inflight_caller_undefined :
    (preloadZstdEntry zstdInitialState).2 = .awaitingInit ∧
    (preloadZstdEntry (preloadZstdEntry zstdInitialState).1).2 = .returned none ∧
    (preloadZstdEntry (preloadZstdEntry zstdInitialState).1).1 =
      (preloadZstdEntry zstdInitialState).1 ∧
    (preloadZstdResume (preloadZstdEntry zstdInitialState).1 7).2 = some 7 ∧
    (preloadZstdEntry (preloadZstdResume (preloadZstdEntry zstdInitialState).1 7).1).2 =
      .returned (some 7) :=
  ⟨rfl, rfl, rfl, rfl, rfl⟩

/-- C1 counterexample: a decoded result with no schema whose first row
does carry a `geometry` key.  The claim says the resolver falls back to
inspecting the first row and does not fail outright; the code throws
`NoGeometryError` without looking at any row. -/
theorem processParquetData_missing_schema_cex :
    processParquetData wkb0 jp0 ⟨none, [rowG]⟩ = .error .noGeometry := rfl

/-- C1 (amended): when the decoder reports no schema, `processParquetData`
fails with `NoGeometryError` regardless of the rows — row keys are never
inspected for column discovery. -/
theorem processParquetData_missing_schema (wkb : List Nat → Option JSValue)
    (jp : String → Option JSValue) (rows : List Row) :
    processParquetData wkb jp ⟨none, rows⟩ = .error .noGeometry := rfl

/-- C5 counterexample: in a table whose schema has a `geometry` column, a
row with the geometry field absent but latitude `40.7` and longitude
`-74.0` is skipped by the falsy-geometry `continue` before the lat/lon
fallback can run: its geometry decodes to nothing, and as the only row it
makes the whole pipeline fail with `EmptyResultError` instead of
producing the Point feature the claim promises. -/
theorem decodeRowGeometry_absent_geometry_cex :
    decodeRowGeometry wkb0 jp0 "geometry" rowLL = none ∧
    processParquetData wkb0 jp0 ⟨some ["geometry"], [rowLL]⟩ = .error .emptyResult :=
  ⟨rfl, rfl⟩

/-- C5 (amended): the lat/lon fallback synthesizes
`Point [parseFloat lon, parseFloat lat]` only for rows whose geometry
value is present and truthy while cases 1-3 produced nothing; rows whose
geometry field is absent or falsy are dropped before the fallback. -/
theorem decodeRowGeometry_latlon_fallback (wkb : List Nat → Option JSValue)
    (jp : String → Option JSValue) (col : String) (row : Row)
    (h1 : geometryCase1 wkb (rowGet row col) = none)
    (h2 : geometryCase2 jp (rowGet row col) = none)
    (h3 : geometryCase3 (rowGet row col) = none)
    (htr : jsTruthy (rowGet row col) = true)
    (hlat : jsTruthy (rowGet row "latitude") = true)
    (hlon : jsTruthy (rowGet row "longitude") = true) :
    decodeRowGeometry wkb jp col row =
      some (createPointFromCoordinates (rowGet row "latitude") (rowGet row "longitude")) ∧
    createPointFromCoordinates (rowGet row "latitude") (rowGet row "longitude") =
      .obj [("type", .str "Point"),
        ("coordinates", .arr [parseFloatJS (rowGet row "longitude"),
          parseFloatJS (rowGet row "latitude")])] ∧
    (∀ row2, jsTruthy (rowGet row2 col) = false → decodeRowGeometry wkb jp col row2 = none) := by
  refine ⟨?_, rfl, ?_⟩
  · simp [decodeRowGeometry, htr, h1, h2, h3, geometryLatLon, hlat, hlon]
  · intro row2 hf
    simp [decodeRowGeometry, hf]

/-- Witness for C5 (amended): a hex-string geometry with latitude `40.7`
and longitude `-74.0` yields `Point [-74, 40.7]` — longitude first — and
the absent-geometry row is dropped. -/
theorem decodeRowGeometry_latlon_fallback_witness :
    decodeRowGeometry wkb0 jp0 "geometry" rowHexLL =
      some (JSValue.obj [("type", .str "Point"),
        ("coordinates", .arr [.num (-74), .num (407 / 10)])]) ∧
    decodeRowGeometry wkb0 jp0 "geometry" rowLL = none := by
  have h := decodeRowGeometry_latlon_fallback wkb0 jp0 "geometry" rowHexLL
    rfl rfl rfl rfl rfl rfl
  refine ⟨?_, h.2.2 rowLL rfl⟩
  rw [h.1]
  have hlonEval : parseFloatJS (rowGet rowHexLL "longitude") = .num (-74) := by
    have e : parseFloatJS (rowGet rowHexLL "longitude") =
        .num ((-1) * ((digitsToNat ['7', '4'] : ℚ) + (digitsToNat ['0'] : ℚ) / 10 ^ 1)) := rfl
    have e2 : digitsToNat ['7', '4'] = 74 := by decide
    have e3 : digitsToNat ['0'] = 0 := by decide
    rw [e, e2, e3]
    congr 1
    norm_num
  have hlatEval : parseFloatJS (rowGet rowHexLL "latitude") = .num (407 / 10) := by
    have e : parseFloatJS (rowGet rowHexLL "latitude") =
        .num ((1 : ℚ) * ((digitsToNat ['4', '0'] : ℚ) + (digitsToNat ['7'] : ℚ) / 10 ^ 1)) := rfl
    have e2 : digitsToNat ['4', '0'] = 40 := by decide
    have e3 : digitsToNat ['7'] = 7 := by decide
    rw [e, e2, e3]
    congr 1
    norm_num
  show some (JSValue.obj [("type", .str "Point"),
      ("coordinates", .arr [parseFloatJS (rowGet rowHexLL "longitude"),
        parseFloatJS (rowGet rowHexLL "latitude")])]) = _
  rw [hlonEval, hlatEval]

/-- C9: for a row whose raw geometry value is a pure-hex text string, the
JSON parsing step is skipped entirely — the decode result does not depend
on the JSON parser at all (first conjunct) — and when the row has no
truthy latitude the decode returns `null` and the row is silently
dropped, with no error raised (second conjunct). -/
theorem decodeRowGeometry_hex_skips_json (wkb : List Nat → Option JSValue)
    (jp jp2 : String → Option JSValue) (col : String) (row : Row) (s : String)
    (hval : rowGet row col = .str s) (hhex : isHexString s = true) :
    decodeRowGeometry wkb jp col row = decodeRowGeometry wkb jp2 col row ∧
    (jsTruthy (rowGet row "latitude") = false →
      decodeRowGeometry wkb jp col row = none ∧
      processRowsWithColumn wkb jp col [row] = []) := by
  have hs : s.isEmpty = false := by
    have hh := hhex
    unfold isHexString at hh
    simp only [Bool.and_eq_true] at hh
    simpa using hh.1
  have htr2 : jsTruthy (JSValue.str s) = true := by simp [jsTruthy, hs]
  have hc1 : geometryCase1 wkb (JSValue.str s) = none := rfl
  have hc2 : ∀ jpx : String → Option JSValue, geometryCase2 jpx (JSValue.str s) = none := by
    intro jpx
    simp [geometryCase2, hhex]
  have hc3 : geometryCase3 (JSValue.str s) = none := by
    simp [geometryCase3, jsGet, jsTruthy]
  constructor
  · simp [decodeRowGeometry, hval, htr2, hc1, hc2, hc3]
  · intro hlat
    have hnone : decodeRowGeometry wkb jp col row = none := by
      simp [decodeRowGeometry, hval, htr2, hc1, hc2, hc3, geometryLatLon, hlat]
    exact ⟨hnone, by simp [processRowsWithColumn, hnone]⟩

/-- Witness for C9: the hex value `deadBEEF01` with no lat/lon fields is
dropped, even under a JSON parser that would succeed on every input. -/
theorem decodeRowGeometry_hex_skips_json_witness :
    decodeRowGeometry wkb0 jp1 "geometry" rowHex =
      decodeRowGeometry wkb0 jp0 "geometry" rowHex ∧
    decodeRowGeometry wkb0 jp1 "geometry" rowHex = none ∧
    processRowsWithColumn wkb0 jp1 "geometry" [rowHex] = [] := by
  have h := decodeRowGeometry_hex_skips_json wkb0 jp1 jp0 "geometry" rowHex "deadBEEF01"
    rfl (by decide)
  exact ⟨h.1, (h.2 rfl).1, (h.2 rfl).2⟩

/-- C7 counterexample: a decoded result with no geometry source makes
`processParquetData` throw `NoGeometryError` (first conjunct), but
because that call sits inside the first `try` (lines 79-91), the error
is swallowed by the inner catch and the pipeline retries through
decompression: with decompression failing, the caller-visible channel
receives the DECOMPRESSION error, not the `NoGeometryError` the claim
says is surfaced (second conjunct). -/
theorem processParquetData_error_masked_cex :
    processParquetData wkb0 jp0 pdNoGeom = .error .noGeometry ∧
    loadData (Except.ok [] : Except Unit (List Nat)) (fun _ => .ok pdNoGeom)
        (fun _ => .error ()) wkb0 jp0 true =
      [Event.setError (.external ()), Event.onError (.external ())] :=
  ⟨rfl, rfl⟩

/-- C7 (amended): `processParquetData` fails with `NoGeometryError` when
no geometry candidate column and no lat/lon fields are found (first
conjunct) and with `EmptyResultError` when a geometry source is resolved
but zero features are produced (second and third conjuncts) — never an
empty-but-valid result.  But a pipe error raised after a successful
direct decode is swallowed by the inner catch and the decompression
fallback runs: what reaches the caller-visible channel is then the
fallback failure, e.g. the decompression error (fourth conjunct); the
pipe error itself reaches `setError`/`onError` only when it arises on
the second, post-decompression attempt (fifth conjunct). -/
theorem processParquetData_fatal_errors {ε : Type} (wkb : List Nat → Option JSValue)
    (jp : String → Option JSValue) (pd : ParquetData)
    (load : List Nat → Except ε ParquetData)
    (dcmp : List Nat → Except ε (List Nat)) (buf : List Nat) :
    (findGeometryColumn pd.schema = none → schemaHasLatLon pd.schema = false →
      processParquetData wkb jp pd = .error .noGeometry) ∧
    (∀ col, findGeometryColumn pd.schema = some col →
      processRowsWithColumn wkb jp col pd.data = [] →
      processParquetData wkb jp pd = .error .emptyResult) ∧
    (findGeometryColumn pd.schema = none → schemaHasLatLon pd.schema = true →
      processLatLonRows pd.data = [] →
      processParquetData wkb jp pd = .error .emptyResult) ∧
    (∀ e ed, processParquetData wkb jp pd = .error e → dcmp buf = .error ed →
      loadData (Except.ok buf) (fun _ => .ok pd) dcmp wkb jp true =
        [Event.setError (.external ed), Event.onError (.external ed)]) ∧
    (∀ e e1 dbuf, load buf = .error e1 → dcmp buf = .ok dbuf → load dbuf = .ok pd →
      processParquetData wkb jp pd = .error e →
      loadData (Except.ok buf) load dcmp wkb jp true =
        [Event.setError (.pipe e), Event.onError (.pipe e)]) := by
  refine ⟨?_, ?_, ?_, ?_, ?_⟩
  · intro h1 h2
    simp [processParquetData, h1, h2]
  · intro col hcol hemp
    simp [processParquetData, hcol, hemp]
  · intro h1 h2 hemp
    simp [processParquetData, h1, h2, hemp]
  · intro e ed he hd
    simp [loadData, loadDataAttempts, processParquetDataMounted, he, hd]
  · intro e e1 dbuf h1 h2 h3 he
    simp [loadData, loadDataAttempts, processParquetDataMounted, h1, h2, h3, he]

/-- Witness for C7: a schema with only column `a` raises
`NoGeometryError`; a geometry column with zero rows raises
`EmptyResultError`; with a decoder failing on the raw buffer but
succeeding on the decompressed bytes, the `NoGeometryError` of the
second attempt is surfaced on the callbacks. -/
theorem processParquetData_fatal_errors_witness :
    processParquetData wkb0 jp0 pdNoGeom = .error .noGeometry ∧
    processParquetData wkb0 jp0 pdEmpty = .error .emptyResult ∧
    loadData (Except.ok [] : Except Unit (List Nat))
        (fun b => if b = [] then .error () else .ok pdNoGeom)
        (fun _ => .ok [9]) wkb0 jp0 true =
      [Event.setError (.pipe .noGeometry), Event.onError (.pipe .noGeometry)] := by
  refine ⟨?_, ?_, ?_⟩
  · exact (processParquetData_fatal_errors wkb0 jp0 pdNoGeom
      (fun _ => (Except.error () : Except Unit ParquetData))
      (fun _ => (Except.error () : Except Unit (List Nat))) []).1 rfl rfl
  · exact (processParquetData_fatal_errors wkb0 jp0 pdEmpty
      (fun _ => (Except.error () : Except Unit ParquetData))
      (fun _ => (Except.error () : Except Unit (List Nat))) []).2.1 "geometry" rfl rfl
  · exact (processParquetData_fatal_errors wkb0 jp0 pdNoGeom
      (fun b => if b = [] then .error () else .ok pdNoGeom)
      (fun _ => (Except.ok [9] : Except Unit (List Nat))) []).2.2.2.2 .noGeometry () [9]
      rfl rfl rfl rfl

/-- C8 counterexample: with a decoder that always succeeds, the direct
decode of the raw buffer succeeds, yet the trace still contains a
decompression call — the row-processing failure after the successful
decode triggers the fallback, refuting "only if that [direct decode]
fails does it decompress"; and the surfaced error is the decompression
error although no decode ever failed. -/
theorem loadDataAttempts_decompress_after_ok_decode_cex :
    loadDataAttempts (fun _ => (Except.ok pdNoGeom : Except Unit ParquetData))
        (fun _ => .error ()) wkb0 jp0 true [] =
      ([.decode [], .decompressCall []], .error (.external ())) :=
  rfl

/-- C8 (amended): the first decode attempt is always on the raw buffer
(second conjunct) and at most two decode attempts are ever made — never
a third (first conjunct).  The decompress-and-retry fallback fires when
the FIRST ATTEMPT fails, and since the inner `try` wraps both the decode
and the processing, "fails" covers a decode throw as well as a
processing throw after a successful decode: a fully successful first
attempt makes exactly one decode and no decompression call (third
conjunct), while a processing failure after a successful decode still
enters the fallback (fourth conjunct).  In the fallback the surfaced
error is the decompression error when decompression itself fails (fifth
and sixth conjuncts, for decode-throw and processing-throw entry),
otherwise the second decode error when the retried decode fails, with
exactly the three recorded attempts (seventh conjunct). -/
theorem loadData_two_decode_attempts {ε : Type} (load : List Nat → Except ε ParquetData)
    (dcmp : List Nat → Except ε (List Nat)) (wkb : List Nat → Option JSValue)
    (jp : String → Option JSValue) (isMounted : Bool) (buf : List Nat) :
    (loadDataAttempts load dcmp wkb jp isMounted buf).1.countP isDecodeAttempt ≤ 2 ∧
    (loadDataAttempts load dcmp wkb jp isMounted buf).1.head? = some (.decode buf) ∧
    (∀ pd (evs : List (Event ε)), load buf = .ok pd →
      processParquetDataMounted wkb jp isMounted pd = (evs, none) →
      (loadDataAttempts load dcmp wkb jp isMounted buf).1 = [.decode buf]) ∧
    (∀ pd (evs : List (Event ε)) pe, load buf = .ok pd →
      processParquetDataMounted wkb jp isMounted pd = (evs, some pe) →
      (loadDataAttempts load dcmp wkb jp isMounted buf).1.take 2 =
        [.decode buf, .decompressCall buf]) ∧
    (∀ e1 ed, load buf = .error e1 → dcmp buf = .error ed →
      loadDataAttempts load dcmp wkb jp isMounted buf =
        ([.decode buf, .decompressCall buf], .error (.external ed))) ∧
    (∀ pd (evs : List (Event ε)) pe ed, load buf = .ok pd →
      processParquetDataMounted wkb jp isMounted pd = (evs, some pe) →
      dcmp buf = .error ed →
      loadDataAttempts load dcmp wkb jp isMounted buf =
        ([.decode buf, .decompressCall buf], .error (.external ed))) ∧
    (∀ e1 dbuf e2, load buf = .error e1 → dcmp buf = .ok dbuf → load dbuf = .error e2 →
      loadDataAttempts load dcmp wkb jp isMounted buf =
        ([.decode buf, .decompressCall buf, .decode dbuf], .error (.external e2))) := by
  refine ⟨?_, ?_, ?_, ?_, ?_, ?_, ?_⟩
  · rcases loadDataAttempts_fst load dcmp wkb jp isMounted buf with h | h | ⟨dbuf, _, h⟩ <;>
      simp [h, List.countP_cons, isDecodeAttempt]
  · rcases loadDataAttempts_fst load dcmp wkb jp isMounted buf with h | h | ⟨dbuf, _, h⟩ <;>
      simp [h]
  · intro pd evs h1 h4
    simp [loadDataAttempts, h1, h4]
  · intro pd evs pe h1 h4
    cases h2 : dcmp buf with
    | error ed => simp [loadDataAttempts, h1, h4, h2]
    | ok dbuf =>
      cases h3 : load dbuf with
      | error e2 => simp [loadDataAttempts, h1, h4, h2, h3]
      | ok pd2 =>
        rcases h5 : processParquetDataMounted (ε := ε) wkb jp isMounted pd2 with ⟨evs2, pe2⟩
        cases pe2 with
        | none => simp [loadDataAttempts, h1, h4, h2, h3, h5]
        | some p2 => simp [loadDataAttempts, h1, h4, h2, h3, h5]
  · intro e1 ed h1 h2
    simp [loadDataAttempts, h1, h2]
  · intro pd evs pe ed h1 h4 h2
    simp [loadDataAttempts, h1, h4, h2]
  · intro e1 dbuf e2 h1 h2 h3
    simp [loadDataAttempts, h1, h2, h3]

/-- Witness for C8 (amended): a fully successful first attempt records a
single decode and no decompression call; a decoder that always throws
with a working decompressor records exactly the three-step trace and
surfaces the second decode error. -/
theorem loadData_two_decode_attempts_witness :
    (loadDataAttempts (fun _ => (Except.ok pdG : Except Unit ParquetData))
        (fun _ => .error ()) wkb0 jp0 true []).1 = [.decode []] ∧
    loadDataAttempts (fun _ => (Except.error "bad parquet" : Except String ParquetData))
        (fun _ => Except.ok [9]) wkb0 jp0 true [1, 2] =
      ([.decode [1, 2], .decompressCall [1, 2], .decode [9]],
        .error (.external "bad parquet")) := by
  constructor
  · exact (loadData_two_decode_attempts (fun _ => (Except.ok pdG : Except Unit ParquetData))
      (fun _ => .error ()) wkb0 jp0 true []).2.2.1 pdG [Event.setData [fG], Event.onLoad]
      rfl rfl
  · exact (loadData_two_decode_attempts
      (fun _ => (Except.error "bad parquet" : Except String ParquetData))
      (fun _ => Except.ok [9]) wkb0 jp0 true [1, 2]).2.2.2.2.2.2 "bad parquet" [9]
      "bad parquet" rfl rfl rfl

/-- C6 counterexample: a structurally accepted geometry object with an
EMPTY coordinate array (`[]` is truthy in JavaScript) is emitted as a
Feature by the full pipeline, so the invariant "coordinate sequence
non-empty" fails on the code. -/
theorem processRowsWithColumn_empty_coordinates_cex :
    processParquetData wkb0 jp0 ⟨some ["geometry"], [rowEmptyCoords]⟩ =
      .ok [⟨gEmptyCoords, [("geometry", .undef)]⟩] ∧
    jsGet gEmptyCoords "coordinates" = .arr [] :=
  ⟨rfl, rfl⟩

/-- C6 (amended): provided the external WKB decoder only returns values
with truthy `type` and `coordinates` properties, every Feature in a
successful output has a non-null (truthy) geometry carrying a truthy
geometry-type tag and a truthy — present, but possibly EMPTY —
`coordinates` property; no Feature is emitted for a row whose geometry
resolution produced nothing. -/
theorem processParquetData_features_truthy_geometry (wkb : List Nat → Option JSValue)
    (jp : String → Option JSValue) (pd : ParquetData) (fs : List Feature)
    (hwkb : ∀ bs g2, wkb bs = some g2 →
      jsTruthy (jsGet g2 "type") = true ∧ jsTruthy (jsGet g2 "coordinates") = true)
    (hok : processParquetData wkb jp pd = .ok fs) (f : Feature) (hf : f ∈ fs) :
    jsTruthy f.geometry = true ∧ jsTruthy (jsGet f.geometry "type") = true ∧
      jsTruthy (jsGet f.geometry "coordinates") = true := by
  have hcases : (∃ col, findGeometryColumn pd.schema = some col ∧
      fs = processRowsWithColumn wkb jp col pd.data) ∨
      (fs = processLatLonRows pd.data) := by
    simp only [processParquetData] at hok
    split at hok
    next e heq => exact absurd hok (by simp)
    next features heq =>
      split at hok
      · exact absurd hok (by simp)
      · obtain rfl := Except.ok.inj hok
        split at heq
        next hcol =>
          split at heq
          · exact Or.inr (Except.ok.inj heq).symm
          · exact absurd heq (by simp)
        next col hcol =>
          exact Or.inl ⟨col, hcol, (Except.ok.inj heq).symm⟩
  rcases hcases with ⟨col, _, hfs⟩ | hfs
  · subst hfs
    unfold processRowsWithColumn at hf
    obtain ⟨row, _, hfn⟩ := List.mem_filterMap.mp hf
    obtain ⟨g, hg, hfeq⟩ := Option.map_eq_some'.mp hfn
    rw [← hfeq]
    exact decodeRowGeometry_some_truthy wkb jp col row g hwkb hg
  · subst hfs
    unfold processLatLonRows at hf
    obtain ⟨row, _, hfn⟩ := List.mem_filterMap.mp hf
    split at hfn
    · obtain rfl := Option.some.inj hfn
      exact createPoint_truthy _ _
    · exact absurd hfn (by simp)

/-- Witness for C6 (amended): the single feature produced from a
structured point geometry has a truthy geometry with truthy `type` and
`coordinates`. -/
theorem processParquetData_features_truthy_geometry_witness :
    jsTruthy fG.geometry = true ∧ jsTruthy (jsGet fG.geometry "type") = true ∧
      jsTruthy (jsGet fG.geometry "coordinates") = true :=
  processParquetData_features_truthy_geometry wkb0 jp0 ⟨some ["geometry"], [rowG]⟩ [fG]
    (fun bs g2 hcontra => absurd hcontra (by simp [wkb0])) rfl fG
    (List.mem_singleton_self fG)

/-- C2 counterexample: in the main `ParquetLayer` assembler, a row with a
structured geometry and a binary non-geometry field `name` produces a
Feature whose properties still hold the RAW bytes of `name` — the
uniform binary-to-UTF-8 decoding the claim describes does not happen in
this variant (the geometry field itself is cleared to `undefined`). -/
theorem processRowsWithColumn_binary_property_cex :
    processParquetData wkb0 jp0 ⟨some ["geometry"], [rowBinProp]⟩ = .ok [f2C] ∧
    ("name", JSValue.bin [72, 105]) ∈ f2C.properties :=
  ⟨rfl, List.Mem.tail _ (List.Mem.head _)⟩

/-- C2 (amended): in the `extractFeatures` variant the claim holds —
every emitted Feature has properties without the geometry key, no binary
value survives (first conjunct), and every binary non-geometry field of
the row appears UTF-8-decoded (second conjunct); in the main
`ParquetLayer` variant only the weaker guarantee holds: the geometry
field of every emitted Feature is overwritten with `undefined`, so raw
geometry bytes never leak, but other binary fields pass through
undecoded (third conjunct, with the counterexample for the rest). -/
theorem extractFeature_properties_decoded (wkx wkb : List Nat → Option JSValue)
    (jp : String → Option JSValue) (row : Row) (f : Feature)
    (h : extractFeature wkx row = some f) :
    (∀ p ∈ f.properties, p.1 ≠ "geometry" ∧ ∀ bs, p.2 ≠ JSValue.bin bs) ∧
    (∀ k bs, (k, JSValue.bin bs) ∈ row → k ≠ "geometry" →
      (k, JSValue.str (utf8Decode bs)) ∈ f.properties) ∧
    (∀ col rows f2, f2 ∈ processRowsWithColumn wkb jp col rows →
      rowGet f2.properties col = .undef) := by
  have hprops : f.properties =
      (row.filter (fun p => p.1 != "geometry")).map (fun p => (p.1, decodeUint8Array p.2)) := by
    unfold extractFeature at h
    split at h
    · exact absurd h (by simp)
    · obtain rfl := Option.some.inj h
      rfl
  refine ⟨?_, ?_, ?_⟩
  · intro p hp
    rw [hprops] at hp
    obtain ⟨q, hq, rfl⟩ := List.mem_map.mp hp
    refine ⟨by simpa using (List.mem_filter.mp hq).2, ?_⟩
    intro bs
    show decodeUint8Array q.2 ≠ .bin bs
    obtain ⟨s, hs⟩ := decodeUint8Array_isStr q.2
    rw [hs]
    simp
  · intro k bs hk hne
    rw [hprops]
    have hmem : (k, JSValue.bin bs) ∈ row.filter (fun p => p.1 != "geometry") :=
      List.mem_filter.mpr ⟨hk, by simpa using hne⟩
    have hmapped := List.mem_map_of_mem (fun p => (p.1, decodeUint8Array p.2)) hmem
    simpa [decodeUint8Array] using hmapped
  · intro col rows f2 hf2
    unfold processRowsWithColumn at hf2
    obtain ⟨row2, _, hfn⟩ := List.mem_filterMap.mp hf2
    obtain ⟨g, _, hfeq⟩ := Option.map_eq_some'.mp hfn
    rw [← hfeq]
    exact rowGet_setField row2 col JSValue.undef

/-- Witness for C2 (amended): the binary field `name` holding the UTF-8
bytes of `Hi` appears in the extractFeatures properties as the string
`Hi`, and the main-variant feature maps its geometry key to `undefined`. -/
theorem extractFeature_properties_decoded_witness :
    ("name", JSValue.str "Hi") ∈ fB.properties ∧
    rowGet f2C.properties "geometry" = .undef := by
  have h := extractFeature_properties_decoded wkx1 wkb0 jp0 rowBin fB rfl
  exact ⟨h.2.1 "name" [72, 105] (List.Mem.tail _ (List.Mem.head _)) (by decide),
    h.2.2 "geometry" [rowBinProp] f2C (List.mem_singleton_self f2C)⟩

end ParquetViewer
